import Mathlib

/-!
Verification of the SSE streaming subsystem of the Frontend repository:
the frame decoder in `src/client/src/api/ollama.ts` (`streamApiRequest`,
lines 78-143) and the consumer state machine in
`src/client/src/components/BotResponce.tsx` (`handleStreamEvent`,
`startStreaming`, `stopStreaming`).

Modelling conventions:
* JavaScript strings are `List Char`; the decoder's text operations
  (`trim`, `startsWith`, `slice`) are reproduced on `List Char`.
* `JSON.parse` is a platform builtin, not repository code, so the decoder
  is parameterised over an abstract parse function
  `jparse : List Char → Option J`; a successful parse stores the parsed
  value (`Sum.inl`), a failed parse stores the raw trimmed string
  (`Sum.inr`), exactly as the `try`/`catch` at ollama.ts lines 116-122.
* JavaScript numeric payload fields are modelled as `Nat`: the consumer
  only stores them and tests truthiness (falsy iff 0 / absent), never
  computes with them.
* React `useState` setters and the `useRef` cells are modelled as fields
  of one explicit state record updated synchronously, matching the
  single-threaded event-loop execution of the component.
-/

namespace SSE

/-- Whitespace for the purposes of `String.prototype.trim` as it occurs in
the decoder (the protocol only ever carries space, tab, CR, LF around
field values). From the `line.trim()` calls at ollama.ts line 94 etc. -/
def isWs (c : Char) : Bool :=
  c == ' ' || c == '\t' || c == '\r' || c == '\n'

/-- JavaScript `s.trim()` on a character list. -/
def trimC (l : List Char) : List Char :=
  ((l.dropWhile isWs).reverse.dropWhile isWs).reverse

/-- The `data: [DONE]` sentinel compared against the trimmed line at
ollama.ts line 97. -/
def doneSentinel : List Char := "data: [DONE]".toList

/-- Field tag `event:` (ollama.ts line 107). -/
def eventTag : List Char := "event:".toList

/-- Field tag `data:` (ollama.ts line 113). -/
def dataTag : List Char := "data:".toList

/-- Field tag `id:` (ollama.ts line 127). -/
def idTag : List Char := "id:".toList

/-- Field tag `retry:` (ollama.ts line 133). -/
def retryTag : List Char := "retry:".toList

/-- JavaScript `parseInt(s, 10)` on an already-trimmed string: optional
sign followed by a maximal digit run; `none` models `NaN` (no digits).
Used at ollama.ts line 134. -/
def jsParseInt (l : List Char) : Option Int :=
  let signed : Int × List Char :=
    match l with
    | '-' :: r => (-1, r)
    | '+' :: r => (1, r)
    | r => (1, r)
  let digits := signed.2.takeWhile Char.isDigit
  if digits.isEmpty then none
  else some (signed.1 * (digits.foldl (fun n c => 10 * n + (Int.ofNat (c.toNat - '0'.toNat))) 0))

/-- One parsed SSE frame: the `StreamEvent` interface of ollama.ts
lines 37-42. `data` is either a parsed JSON value (`Sum.inl`) or the raw
trimmed string kept after a parse failure (`Sum.inr`). `retry` is
`some none` when the field was present but `parseInt` produced `NaN`. -/
structure StreamEvent (J : Type) where
  event : List Char
  data : J ⊕ List Char
  id : Option (List Char) := none
  retry : Option (Option Int) := none
deriving DecidableEq, Repr

/-- The in-progress record `currentEvent : Partial<StreamEvent>` of
ollama.ts line 91. -/
structure PartialEvent (J : Type) where
  event : Option (List Char) := none
  data : Option (J ⊕ List Char) := none
  id : Option (List Char) := none
  retry : Option (Option Int) := none
deriving DecidableEq, Repr

/-- The fresh record `{}`. -/
def PartialEvent.empty (J : Type) : PartialEvent J := {}

/-- The completeness test `currentEvent.event && currentEvent.data !==
undefined` (ollama.ts lines 99, 140): the event name must be set and
truthy (non-empty), the data field merely set. -/
def PartialEvent.complete {J : Type} (pe : PartialEvent J) : Bool :=
  (match pe.event with
   | some e => !e.isEmpty
   | none => false) && pe.data.isSome

/-- The cast `currentEvent as StreamEvent` performed when emitting
(ollama.ts lines 100, 141); only applied to complete records. -/
def PartialEvent.toEvent {J : Type} (pe : PartialEvent J) : StreamEvent J :=
  { event := pe.event.getD []
    data := pe.data.getD (Sum.inr [])
    id := pe.id
    retry := pe.retry }

/-- Processing of one complete line, ollama.ts lines 93-137: trim, then
in order test for terminator (blank or `data: [DONE]`), `event:`,
`data:`, `id:`, `retry:`; anything else is ignored. Returns the updated
in-progress record and the emitted event, if any. -/
def processLine {J : Type} (jparse : List Char → Option J)
    (pe : PartialEvent J) (line : List Char) :
    PartialEvent J × Option (StreamEvent J) :=
  let trimmed := trimC line
  if trimmed.isEmpty || trimmed = doneSentinel then
    if pe.complete then (PartialEvent.empty J, some pe.toEvent) else (pe, none)
  else if eventTag.isPrefixOf trimmed then
    ({ pe with event := some (trimC (trimmed.drop 6)) }, none)
  else if dataTag.isPrefixOf trimmed then
    let dataStr := trimC (trimmed.drop 5)
    ({ pe with data := some (match jparse dataStr with
        | some v => Sum.inl v
        | none => Sum.inr dataStr) }, none)
  else if idTag.isPrefixOf trimmed then
    ({ pe with id := some (trimC (trimmed.drop 3)) }, none)
  else if retryTag.isPrefixOf trimmed then
    ({ pe with retry := some (jsParseInt (trimC (trimmed.drop 6))) }, none)
  else (pe, none)

/-- The `for (const line of lines)` loop of ollama.ts lines 93-137:
process the lines in order, threading the in-progress record and
collecting emissions in order. -/
def processLines {J : Type} (jparse : List Char → Option J)
    (pe : PartialEvent J) : List (List Char) →
    PartialEvent J × List (StreamEvent J)
  | [] => (pe, [])
  | l :: ls =>
    let step := processLine jparse pe l
    let rest := processLines jparse step.1 ls
    (rest.1, step.2.toList ++ rest.2)

/-- One chunk's line processing, ollama.ts lines 90-142: the in-progress
record starts fresh (`let currentEvent = {}` is inside the read loop),
and a record left complete after the chunk's lines is force-emitted
(lines 139-142). -/
def processChunkLines {J : Type} (jparse : List Char → Option J)
    (lines : List (List Char)) : List (StreamEvent J) :=
  let run := processLines jparse (PartialEvent.empty J) lines
  run.2 ++ (if run.1.complete then [run.1.toEvent] else [])

/-- Prepending one non-newline character to a line split: it extends the
first complete line when one exists, and otherwise grows the carry. -/
def consLine (c : Char) : List (List Char) × List Char → List (List Char) × List Char
  | ([], carry) => ([], c :: carry)
  | (l :: ls, carry) => ((c :: l) :: ls, carry)

/-- `buffer.split('\n')` followed by `buffer = lines.pop() || ''`
(ollama.ts lines 87-88): the complete lines in order, and the final
(possibly empty) segment retained as the new carry-over buffer. -/
def splitLines : List Char → List (List Char) × List Char
  | [] => ([], [])
  | c :: rest =>
    if c = '\n' then ([] :: (splitLines rest).1, (splitLines rest).2)
    else consLine c (splitLines rest)

/-- The line-assembly stage of the read loop over a whole sequence of
chunks: carry the buffer across chunks, accumulating the complete lines
delivered to the per-chunk record loop. -/
def feedLines (chunks : List (List Char)) : List (List Char) × List Char :=
  chunks.foldl
    (fun acc chunk =>
      let split := splitLines (acc.2 ++ chunk)
      (acc.1 ++ split.1, split.2))
    ([], [])

/-- The full decoding loop of `streamApiRequest` (ollama.ts lines 82-143)
over a sequence of chunks: per chunk, append to the carry buffer, split
off the complete lines, and run the per-chunk record loop on them.
Returns the ordered events delivered to `onEvent`. -/
def decodeChunks {J : Type} (jparse : List Char → Option J)
    (chunks : List (List Char)) : List (StreamEvent J) :=
  (chunks.foldl
    (fun acc chunk =>
      let split := splitLines (acc.2 ++ chunk)
      (acc.1 ++ processChunkLines jparse split.1, split.2))
    (([] : List (StreamEvent J)), ([] : List Char))).1

/-- A model of `JSON.parse` that fails on every input; used to evaluate
the decoder on inputs whose `data:` payloads are not valid JSON, where
every faithful model of `JSON.parse` returns `none`. -/
def jparseNone : List Char → Option Unit := fun _ => none

end SSE

namespace BotResponse

/-- Truthy projection of a JavaScript string-valued field: `none` when
the field is absent or the empty string (both falsy). -/
def strVal : Option String → Option String
  | none => none
  | some s => if s = "" then none else some s

/-- Truthy projection of a JavaScript number-valued field: `none` when
the field is absent or `0` (both falsy). -/
def natVal : Option Nat → Option Nat
  | none => none
  | some n => if n = 0 then none else some n

/-- The `CodeBlock` interface of BotResponce.tsx lines 23-28. -/
structure CodeBlock where
  language : Option String := none
  content : String
  startPosition : Nat := 0
  endPosition : Nat := 0
deriving DecidableEq, Repr

/-- The `StreamingStats` state of BotResponce.tsx lines 30-36;
`totalDuration` and `codeBlocksDetected` start out absent. -/
structure StreamingStats where
  tokenCount : Nat := 0
  tokensPerSecond : Nat := 0
  elapsedTime : Nat := 0
  totalDuration : Option Nat := none
  codeBlocksDetected : Option Nat := none
deriving DecidableEq, Repr

/-- The payload fields `handleStreamEvent` reads off `event.data`
(BotResponce.tsx lines 94-172); every field is optional, since the
payload is backend-supplied JSON. -/
structure EventData where
  token : Option String := none
  content : Option String := none
  count : Option Nat := none
  codeBlockId : Option Nat := none
  language : Option String := none
  error : Option String := none
  tokensPerSecondField : Option Nat := none
  elapsed : Option Nat := none
  duration : Option Nat := none
  codeBlocksDetectedField : Option Nat := none
  codeBlocksField : Option (List CodeBlock) := none
deriving DecidableEq, Repr

/-- A dispatched stream event as the consumer sees it: the tag string
switched on at BotResponce.tsx line 81 and the structured payload. -/
structure DispatchedEvent where
  event : String
  data : EventData := {}
deriving DecidableEq, Repr

/-- The callbacks and externally visible actions of one session; used to
record what the component does beyond updating its own state. -/
inductive SessionAction where
  | networkCall
  | abortRequest
  | retryScheduled (delayMs : Nat)
  | onCompleteCb (text : String) (blocks : List CodeBlock)
  | onErrorCb (msg : String)
deriving DecidableEq, Repr

/-- The component state of `BotResponse`: the `useState` values and the
`useRef` cells (BotResponce.tsx lines 45-64). `response` stands for both
`responseBufferRef` and the rendered `response`, which the code keeps in
sync. `abortController` is `none` when `abortControllerRef.current` is
null, `some b` when a controller exists whose signal has aborted = b. -/
structure BotState where
  response : String := ""
  isStreaming : Bool := false
  error : Option String := none
  isComplete : Bool := false
  stats : StreamingStats := {}
  codeBlocks : List CodeBlock := []
  activeCodeBlock : Option Nat := none
  currentCodeContent : String := ""
  retryCount : Nat := 0
  streamingActive : Bool := false
  abortController : Option Bool := none
deriving DecidableEq, Repr

/-- The initial component state (BotResponce.tsx lines 45-64). -/
def initialState : BotState := {}

/-- `maxRetries = 3` (BotResponce.tsx line 64). -/
def maxRetries : Nat := 3

/-- The accumulator phases of the specification's state machine, read off
the component's status indicator (BotResponce.tsx lines 318-322), whose
precedence is: streaming, then complete, then errored, then idle. -/
inductive Phase where
  | Idle
  | Streaming
  | Complete
  | Errored
deriving DecidableEq, Repr

/-- Phase derivation from the component state, following the status
indicator's precedence. -/
def phase (s : BotState) : Phase :=
  if s.isStreaming then .Streaming
  else if s.isComplete then .Complete
  else if s.error.isSome then .Errored
  else .Idle

/-- The message chosen by the `error` case, `event.data.error ||
'Unknown streaming error'` (BotResponce.tsx line 168). -/
def errorMessageOf (o : Option String) : String :=
  (strVal o).getD "Unknown streaming error"

/-- `handleStreamEvent` (BotResponce.tsx lines 75-177): the guard on
`streamingActiveRef` followed by the switch on `event.event`. Returns
the updated state and the callbacks invoked. -/
def handleStreamEvent (s : BotState) (e : DispatchedEvent) :
    BotState × List SessionAction :=
  if !s.streamingActive then (s, [])
  else if e.event = "start" then
    ({ s with
        isStreaming := true
        error := none
        isComplete := false
        response := ""
        codeBlocks := []
        activeCodeBlock := none
        retryCount := 0
        streamingActive := true }, [])
  else if e.event = "token" then
    match strVal e.data.token with
    | some t =>
      let s1 := { s with response := s.response ++ t }
      match natVal e.data.count with
      | some c => ({ s1 with stats := { s1.stats with tokenCount := c } }, [])
      | none => (s1, [])
    | none => (s, [])
  else if e.event = "code_start" then
    ({ s with activeCodeBlock := e.data.codeBlockId, currentCodeContent := "" }, [])
  else if e.event = "code_token" then
    match strVal e.data.token with
    | some t =>
      ({ s with
          currentCodeContent := s.currentCodeContent ++ t
          response := s.response ++ t }, [])
    | none => (s, [])
  else if e.event = "code_end" then
    let s1 := { s with activeCodeBlock := none }
    match strVal e.data.content with
    | some c =>
      ({ s1 with codeBlocks := s1.codeBlocks ++
          [{ language := e.data.language, content := c }] }, [])
    | none => (s1, [])
  else if e.event = "progress" then
    ({ s with
        stats := { s.stats with
          tokenCount := (natVal e.data.count).getD s.stats.tokenCount
          tokensPerSecond := (natVal e.data.tokensPerSecondField).getD 0
          elapsedTime := (natVal e.data.elapsed).getD 0 } }, [])
  else if e.event = "metadata" then
    let s1 := { s with
        stats := { s.stats with
          totalDuration := e.data.duration
          tokensPerSecond := (natVal e.data.tokensPerSecondField).getD s.stats.tokensPerSecond
          codeBlocksDetected := some ((natVal e.data.codeBlocksDetectedField).getD 0) } }
    match e.data.codeBlocksField with
    | some bs => ({ s1 with codeBlocks := bs }, [])
    | none => (s1, [])
  else if e.event = "done" then
    let finalResponse := s.response.trim
    let finalCodeBlocks := if s.codeBlocks.length > 0 then s.codeBlocks else []
    ({ s with isStreaming := false, isComplete := true, streamingActive := false },
      [.onCompleteCb finalResponse finalCodeBlocks])
  else if e.event = "error" then
    let msg := errorMessageOf e.data.error
    ({ s with error := some msg, isStreaming := false, streamingActive := false },
      [.onErrorCb msg])
  else (s, [])

/-- Dispatching a list of decoded events in order through
`handleStreamEvent`, collecting all callbacks. -/
def processEvents (s : BotState) : List DispatchedEvent →
    BotState × List SessionAction
  | [] => (s, [])
  | e :: es =>
    let step := handleStreamEvent s e
    let rest := processEvents step.1 es
    (rest.1, step.2 ++ rest.2)

/-- The result the environment hands one `streamApiRequest` call: either
the promise resolves after delivering a list of decoded events, or it
rejects with an error whose `name === 'AbortError'` test is modelled by
the Boolean. -/
inductive AttemptOutcome where
  | success (events : List DispatchedEvent)
  | failure (isAbort : Bool) (msg : String)
deriving DecidableEq, Repr

/-- The retry notification string built at BotResponce.tsx line 218. -/
def retryMessage (n : Nat) : String :=
  "Connection lost. Retrying... (" ++ toString n ++ "/" ++ toString maxRetries ++ ")"

/-- `startStreaming` (BotResponce.tsx lines 180-233), driven by a list of
attempt outcomes supplied by the environment, one per network call. The
guard at line 181 precedes any network activity; on non-abort failure the
retry counter is incremented and, below `maxRetries` with the session
still active, a restart is scheduled (`setTimeout`, delay `1000 *
retryCount`) whose body re-checks `streamingActiveRef` before recursing;
otherwise the terminal error is surfaced through `onError`. An empty
outcome list means the pending attempt never settles. -/
def startStreaming (outcomes : List AttemptOutcome) (s : BotState) :
    BotState × List SessionAction :=
  if maxRetries ≤ s.retryCount then
    ({ s with error := some ("Failed after " ++ toString maxRetries ++ " attempts") }, [])
  else
    match outcomes with
    | [] => (s, [])
    | o :: rest =>
      let preActions : List SessionAction :=
        (if s.abortController.isSome then [.abortRequest] else []) ++ [.networkCall]
      let s1 := { s with
          isStreaming := true
          error := none
          isComplete := false
          streamingActive := true
          abortController := some false }
      match o with
      | .success evs =>
        let run := processEvents s1 evs
        (run.1, preActions ++ run.2)
      | .failure true _ => (s1, preActions)
      | .failure false msg =>
        let s2 := { s1 with retryCount := s1.retryCount + 1 }
        if s2.retryCount < maxRetries && s2.streamingActive then
          let s3 := { s2 with error := some (retryMessage s2.retryCount) }
          let fire := if s3.streamingActive then startStreaming rest s3 else (s3, [])
          (fire.1, preActions ++ [.retryScheduled (1000 * s2.retryCount)] ++ fire.2)
        else
          let emsg := errorMessageOf (some msg)
          ({ s2 with
              error := some emsg
              isStreaming := false
              streamingActive := false }, preActions ++ [.onErrorCb emsg])

/-- The body of the retry timer scheduled at BotResponce.tsx lines
220-224: re-check `streamingActiveRef` and only then restart. -/
def retryTimerFire (outcomes : List AttemptOutcome) (s : BotState) :
    BotState × List SessionAction :=
  if s.streamingActive then startStreaming outcomes s else (s, [])

/-- `cleanup` (BotResponce.tsx lines 66-73): abort a live, not yet
aborted controller, null the ref, clear the active flag and the active
code block. -/
def cleanup (s : BotState) : BotState × List SessionAction :=
  let abortIssued := s.abortController = some false
  ({ s with
      abortController := none
      streamingActive := false
      activeCodeBlock := none },
    if abortIssued then [.abortRequest] else [])

/-- `stopStreaming` (BotResponce.tsx lines 236-241): clear the active
flags, run `cleanup`, and mark the turn complete. -/
def stopStreaming (s : BotState) : BotState × List SessionAction :=
  let s1 := { s with streamingActive := false, isStreaming := false }
  let c := cleanup s1
  ({ c.1 with isComplete := true }, c.2)

/-- The session is in the spec's Streaming phase and actively consuming:
the dispatch guard is open, the streaming flag is up and the turn is not
yet complete. -/
def InStreaming (s : BotState) : Prop :=
  s.streamingActive = true ∧ s.isStreaming = true ∧ s.isComplete = false

instance (s : BotState) : Decidable (InStreaming s) := by
  unfold InStreaming; infer_instance

/-- A representative state in the Streaming phase, as produced by a
`start` event on a fresh active session. -/
def streamingState : BotState :=
  { initialState with
      isStreaming := true
      streamingActive := true
      abortController := some false }

/-- A Streaming-phase state with non-trivial statistics already
accumulated, used to exercise the `start` and `progress` transitions. -/
def statefulStreaming : BotState :=
  { streamingState with
      stats := { tokenCount := 5, tokensPerSecond := 7, elapsedTime := 9 } }

/-- Recognises the network-call action. -/
def isNetworkCall : SessionAction → Bool
  | .networkCall => true
  | _ => false

/-- Recognises a scheduled-retry action. -/
def isRetrySched : SessionAction → Bool
  | .retryScheduled _ => true
  | _ => false

/-- Recognises an `onError` callback action. -/
def isErrorCb : SessionAction → Bool
  | .onErrorCb _ => true
  | _ => false

/-- Recognises an `onComplete` callback action. -/
def isCompleteCb : SessionAction → Bool
  | .onCompleteCb _ _ => true
  | _ => false

/-- The truthy `count` values carried by the `progress` events of a list,
in order; these are the only values `progress`/`metadata` dispatch can
write into `stats.tokenCount`. -/
def truthyCounts (evs : List DispatchedEvent) : List Nat :=
  evs.filterMap (fun e => if e.event = "progress" then natVal e.data.count else none)

end BotResponse

/-! ## Decoder lemmas and claims C1, C4, C5 -/

namespace SSE

theorem splitLines_carry_no_nl (l : List Char) : '\n' ∉ (splitLines l).2 := by
  induction l with
  | nil => simp [splitLines]
  | cons c rest ih =>
    by_cases hc : c = '\n'
    · subst hc; simpa [splitLines] using ih
    · rcases h1 : splitLines rest with ⟨_ | ⟨l0, ls⟩, carry⟩ <;>
        rw [h1] at ih <;> simp only [splitLines, hc, if_false] <;> rw [h1] <;>
        simp [consLine] at ih ⊢
      · exact ⟨fun hh => hc hh.symm, ih⟩
      · exact ih

theorem splitLines_no_nl (l : List Char) (h : '\n' ∉ l) : splitLines l = ([], l) := by
  induction l with
  | nil => simp [splitLines]
  | cons c rest ih =>
    have hc : c ≠ '\n' := fun hh => h (hh ▸ List.mem_cons_self c rest)
    have hrest : '\n' ∉ rest := fun hh => h (List.mem_cons_of_mem c hh)
    simp only [splitLines, hc, if_false, ih hrest]
    simp [consLine]

theorem splitLines_append (x y : List Char) :
    splitLines (x ++ y) =
      ((splitLines x).1 ++ (splitLines ((splitLines x).2 ++ y)).1,
        (splitLines ((splitLines x).2 ++ y)).2) := by
  induction x with
  | nil => simp [splitLines]
  | cons c x ih =>
    by_cases hc : c = '\n'
    · subst hc
      simp [splitLines, ih]
    · rcases h1 : splitLines x with ⟨_ | ⟨l0, ls⟩, carry⟩
      · rw [h1] at ih
        simp only [List.nil_append] at ih
        rcases h2 : splitLines (carry ++ y) with ⟨ms, carry2⟩
        rw [h2] at ih
        simp only at ih
        simp only [List.cons_append, splitLines, hc, if_false, List.append_eq]
        rw [ih, h1]
        simp only [consLine, List.cons_append, splitLines, hc, if_false,
          List.append_eq]
        rw [h2]
        cases ms <;> simp [consLine]
      · rw [h1] at ih
        simp only at ih
        simp only [List.cons_append, splitLines, hc, if_false, List.append_eq]
        rw [ih, h1]
        simp [consLine]

theorem feedLines_foldl_eq (chunks : List (List Char)) :
    ∀ (acc : List (List Char)) (buf : List Char), '\n' ∉ buf →
    chunks.foldl
      (fun a chunk =>
        let split := splitLines (a.2 ++ chunk)
        (a.1 ++ split.1, split.2))
      (acc, buf)
      = (acc ++ (splitLines (buf ++ chunks.flatten)).1,
          (splitLines (buf ++ chunks.flatten)).2) := by
  induction chunks with
  | nil =>
    intro acc buf hbuf
    simp [splitLines_no_nl buf hbuf]
  | cons chunk rest ih =>
    intro acc buf hbuf
    simp only [List.foldl_cons, List.flatten_cons]
    rw [ih _ _ (splitLines_carry_no_nl _)]
    have h := splitLines_append (buf ++ chunk) rest.flatten
    rw [List.append_assoc] at h
    rw [h]
    simp [List.append_assoc]

/-- C1 (amended): chunk-boundary invariance holds for the line-assembly
stage of the decoding loop: for every way of splitting the byte stream
into chunks, the ordered sequence of complete lines handed to the record
loop, together with the final carry-over buffer, is the same as when the
whole input arrives as one chunk; in particular no partial line is ever
dropped at a chunk boundary. (Invariance of the decoded event sequence
itself fails, because the in-progress record is reset at every chunk
boundary; see the counterexample.) -/
theorem c1_line_assembly_chunk_invariant (chunks : List (List Char)) :
    feedLines chunks = splitLines chunks.flatten := by
  have h := feedLines_foldl_eq chunks [] [] (by simp)
  simpa [feedLines] using h

/-- C1 (counterexample): the well-formed SSE input
`event: token\ndata: hello\n\n` decodes to one event when fed as a
single chunk, but to no events at all when split into the two chunks
`event: token\n` and `data: hello\n\n`, because the in-progress record
assembled from the first chunk's `event:` line is discarded at the chunk
boundary. The data payload is not valid JSON, so every model of
`JSON.parse` rejects it. -/
theorem c1_chunk_split_changes_event_sequence :
    decodeChunks jparseNone ["event: token\n".toList, "data: hello\n\n".toList]
      ≠ decodeChunks jparseNone [("event: token\ndata: hello\n\n").toList] := by
  decide

/-- C4: a decoded line that starts (after trimming) with `data:` whose
remainder fails to parse as JSON stores the raw trimmed remainder as the
record's data value and emits nothing, and decoding simply continues
with the following lines from the updated record; no error is raised
(the embedding is total, so failure could only surface as a stuck or
diverging branch, and the equations show there is none). -/
theorem c4_malformed_json_degrades_to_raw {J : Type} (jparse : List Char → Option J)
    (pe : PartialEvent J) (line t : List Char) (rest : List (List Char))
    (h1 : trimC line = dataTag ++ t) (h2 : trimC line ≠ doneSentinel)
    (h3 : jparse (trimC t) = none) :
    processLine jparse pe line = ({ pe with data := some (Sum.inr (trimC t)) }, none) ∧
    processLines jparse pe (line :: rest)
      = processLines jparse { pe with data := some (Sum.inr (trimC t)) } rest := by
  have hd : dataTag = ['d', 'a', 't', 'a', ':'] := rfl
  rw [hd] at h1
  rw [h1] at h2
  simp only [List.cons_append, List.nil_append] at h2
  have hmain : processLine jparse pe line
      = ({ pe with data := some (Sum.inr (trimC t)) }, none) := by
    simp only [processLine, h1]
    simp [h2, List.isPrefixOf, eventTag, dataTag, idTag, retryTag, h3, List.drop]
  refine ⟨hmain, ?_⟩
  simp [processLines, hmain]

/-- C4 (witness): the concrete line `data: hello`, whose payload `hello`
is not valid JSON, degrades to the raw string `hello`. -/
theorem c4_malformed_json_degrades_to_raw_witness :
    (trimC "data: hello".toList = dataTag ++ " hello".toList) ∧
    processLine jparseNone (PartialEvent.empty Unit) "data: hello".toList
      = ({ PartialEvent.empty Unit with
            data := some (Sum.inr (trimC " hello".toList)) }, none) :=
  ⟨by decide,
    (c4_malformed_json_degrades_to_raw jparseNone (PartialEvent.empty Unit) _ _ []
      (by decide) (by decide) rfl).1⟩

/-- C5: for an in-progress record with both an event name and a data
value set, a blank line (the empty line `[]`) and the literal
`data: [DONE]` line behave identically: each makes the record be emitted
exactly once, after which the in-progress record is reset to the fresh
record, and decoding of the remaining lines proceeds from that reset
state. -/
theorem c5_terminators_interchangeable {J : Type} (jparse : List Char → Option J)
    (pe : PartialEvent J) (rest : List (List Char)) (h : pe.complete = true) :
    processLine jparse pe [] = (PartialEvent.empty J, some pe.toEvent) ∧
    processLine jparse pe doneSentinel = (PartialEvent.empty J, some pe.toEvent) ∧
    processLines jparse pe ([] :: rest) = processLines jparse pe (doneSentinel :: rest) ∧
    (processLines jparse pe ([] :: rest)).2
      = pe.toEvent :: (processLines jparse (PartialEvent.empty J) rest).2 ∧
    (processLines jparse pe ([] :: rest)).1
      = (processLines jparse (PartialEvent.empty J) rest).1 := by
  have hblank : processLine jparse pe [] = (PartialEvent.empty J, some pe.toEvent) := by
    simp [processLine, trimC, h]
  have hts : trimC doneSentinel = doneSentinel := by decide
  have hdone : processLine jparse pe doneSentinel
      = (PartialEvent.empty J, some pe.toEvent) := by
    simp [processLine, hts, h]
  refine ⟨hblank, hdone, ?_, ?_, ?_⟩ <;> simp [processLines, hblank, hdone]

/-- C5 (witness): a concrete complete record, terminated by a blank
line, is emitted once. -/
theorem c5_terminators_interchangeable_witness :
    (({ event := some ['t'], data := some (Sum.inr ['x']) } : PartialEvent Unit).complete
      = true) ∧
    processLine jparseNone { event := some ['t'], data := some (Sum.inr ['x']) } []
      = (PartialEvent.empty Unit,
          some ({ event := some ['t'],
                  data := some (Sum.inr ['x']) } : PartialEvent Unit).toEvent) :=
  ⟨by decide, (c5_terminators_interchangeable jparseNone _ [] (by decide)).1⟩

end SSE

/-! ## Consumer and session-controller claims C2, C3, C6, C7, C8, C9, C10 -/

namespace BotResponse

theorem handle_actions_are_callbacks (s : BotState) (e : DispatchedEvent) :
    ∀ a ∈ (handleStreamEvent s e).2, isErrorCb a = true ∨ isCompleteCb a = true := by
  intro a ha
  cases hA : s.streamingActive with
  | false => simp [handleStreamEvent, hA] at ha
  | true =>
    by_cases h1 : e.event = "start"
    · simp [handleStreamEvent, hA, h1] at ha
    · by_cases h2 : e.event = "token"
      · rcases hv : strVal e.data.token with _ | t
        · simp [handleStreamEvent, hA, h1, h2, hv] at ha
        · rcases hc : natVal e.data.count with _ | c <;>
            simp [handleStreamEvent, hA, h1, h2, hv, hc] at ha
      · by_cases h3 : e.event = "code_start"
        · simp [handleStreamEvent, hA, h1, h2, h3] at ha
        · by_cases h4 : e.event = "code_token"
          · rcases hv : strVal e.data.token with _ | t <;>
              simp [handleStreamEvent, hA, h1, h2, h3, h4, hv] at ha
          · by_cases h5 : e.event = "code_end"
            · rcases hv : strVal e.data.content with _ | c <;>
                simp [handleStreamEvent, hA, h1, h2, h3, h4, h5, hv] at ha
            · by_cases h6 : e.event = "progress"
              · simp [handleStreamEvent, hA, h1, h2, h3, h4, h5, h6] at ha
              · by_cases h7 : e.event = "metadata"
                · rcases hb : e.data.codeBlocksField with _ | bs <;>
                    simp [handleStreamEvent, hA, h1, h2, h3, h4, h5, h6, h7, hb] at ha
                · by_cases h8 : e.event = "done"
                  · right
                    simp [handleStreamEvent, hA, h1, h2, h3, h4, h5, h6, h7, h8] at ha
                    subst ha; rfl
                  · by_cases h9 : e.event = "error"
                    · left
                      simp [handleStreamEvent, hA, h1, h2, h3, h4, h5, h6, h7, h8, h9] at ha
                      subst ha; rfl
                    · simp [handleStreamEvent, hA, h1, h2, h3, h4, h5, h6, h7, h8, h9] at ha

theorem processEvents_no_network (s : BotState) (evs : List DispatchedEvent) :
    (processEvents s evs).2.filter isNetworkCall = [] ∧
    (processEvents s evs).2.filter isRetrySched = [] := by
  induction evs generalizing s with
  | nil => simp [processEvents]
  | cons e rest ih =>
    have h := handle_actions_are_callbacks s e
    have h1 : (handleStreamEvent s e).2.filter isNetworkCall = [] := by
      rw [List.filter_eq_nil_iff]
      intro a ha
      rcases h a ha with hh | hh <;> cases a <;>
        simp_all [isErrorCb, isCompleteCb, isNetworkCall]
    have h2 : (handleStreamEvent s e).2.filter isRetrySched = [] := by
      rw [List.filter_eq_nil_iff]
      intro a ha
      rcases h a ha with hh | hh <;> cases a <;>
        simp_all [isErrorCb, isCompleteCb, isRetrySched]
    simp [processEvents, List.filter_append, h1, h2, ih]

/-- C3 (counterexample): a `token` event whose payload carries only a
`content` field (`content = "x"`, no `token` field) appends nothing to
the text buffer, refuting the claim that the content field is appended
as an alternative to the token field. -/
theorem c3_content_only_payload_appends_nothing :
    ¬ ((handleStreamEvent streamingState
        { event := "token", data := { content := some "x" } }).1.response
      = streamingState.response ++ "x") := by decide

/-- C3 (amended): in the Streaming phase a `token` event appends the
payload's `token` field to the text buffer when that field is present
and non-empty, and otherwise leaves the state entirely unchanged; the
payload's `content` field is never consulted; the accumulator stays in
Streaming with `codeBlocks` unchanged and no callbacks fire. -/
theorem c3_token_appends_token_field_only (s : BotState) (d : EventData)
    (hs : InStreaming s) :
    (handleStreamEvent s { event := "token", data := d }).1.response
      = s.response ++ ((strVal d.token).getD "") ∧
    (strVal d.token = none → handleStreamEvent s { event := "token", data := d } = (s, [])) ∧
    (∀ c, handleStreamEvent s { event := "token", data := { d with content := c } }
        = handleStreamEvent s { event := "token", data := d }) ∧
    (handleStreamEvent s { event := "token", data := d }).1.codeBlocks = s.codeBlocks ∧
    phase (handleStreamEvent s { event := "token", data := d }).1 = Phase.Streaming ∧
    InStreaming (handleStreamEvent s { event := "token", data := d }).1 ∧
    (handleStreamEvent s { event := "token", data := d }).2 = [] := by
  obtain ⟨h1, h2, h3⟩ := hs
  refine ⟨?_, ?_, ?_, ?_, ?_, ?_, ?_⟩ <;>
    rcases hv : strVal d.token with _ | t <;>
    rcases hc : natVal d.count with _ | c <;>
    simp [handleStreamEvent, h1, h2, h3, hv, hc, phase, InStreaming]

/-- C3 (witness): a token event carrying `token = "hi"` appends it. -/
theorem c3_token_appends_token_field_only_witness :
    InStreaming streamingState ∧
    (handleStreamEvent streamingState
        { event := "token", data := { token := some "hi" } }).1.response
      = streamingState.response ++ ((strVal (some "hi")).getD "") :=
  ⟨by decide,
    (c3_token_appends_token_field_only streamingState { token := some "hi" } (by decide)).1⟩

/-- C8 (counterexample): dispatching `start` in a state whose statistics
hold `tokenCount = 5` leaves `tokenCount` at 5; the stats are not reset,
refuting the claim that `start` resets them. -/
theorem c8_start_leaves_stats_unchanged :
    ¬ ((handleStreamEvent statefulStreaming { event := "start" }).1.stats.tokenCount
      = 0) := by
  decide

/-- C8 (amended): a `start` event processed while the session is active
resets the text buffer, the code-block list, the retry counter, the
error and the active code block, and (re-)enters the Streaming phase,
but leaves the statistics untouched; a `start` event arriving while the
session is inactive is ignored entirely by the dispatch guard. -/
theorem c8_start_resets_buffers_not_stats (s : BotState) (d : EventData)
    (hs : s.streamingActive = true) :
    (handleStreamEvent s { event := "start", data := d }).1.response = "" ∧
    (handleStreamEvent s { event := "start", data := d }).1.codeBlocks = [] ∧
    (handleStreamEvent s { event := "start", data := d }).1.retryCount = 0 ∧
    (handleStreamEvent s { event := "start", data := d }).1.error = none ∧
    (handleStreamEvent s { event := "start", data := d }).1.activeCodeBlock = none ∧
    (handleStreamEvent s { event := "start", data := d }).1.stats = s.stats ∧
    phase (handleStreamEvent s { event := "start", data := d }).1 = Phase.Streaming ∧
    InStreaming (handleStreamEvent s { event := "start", data := d }).1 ∧
    (handleStreamEvent s { event := "start", data := d }).2 = [] ∧
    (∀ s2 : BotState, s2.streamingActive = false →
      handleStreamEvent s2 { event := "start", data := d } = (s2, [])) := by
  refine ⟨?_, ?_, ?_, ?_, ?_, ?_, ?_, ?_, ?_, ?_⟩
  case refine_10 => intro s2 h; simp [handleStreamEvent, h]
  all_goals simp [handleStreamEvent, hs, phase, InStreaming]

/-- C8 (witness): `start` on the stateful Streaming sample resets the
buffer. -/
theorem c8_start_resets_buffers_not_stats_witness :
    statefulStreaming.streamingActive = true ∧
    (handleStreamEvent statefulStreaming { event := "start", data := {} }).1.response = "" :=
  ⟨rfl, (c8_start_resets_buffers_not_stats statefulStreaming {} rfl).1⟩

/-- C10: while the session is active, a `progress` event whose payload
omits `tokens_per_second` or carries the falsy value 0 resets
`tokensPerSecond` to 0, a payload that omits `elapsed` resets
`elapsedTime` to 0, and a payload that omits `count` leaves `tokenCount`
at its previous value. -/
theorem c10_progress_falsy_field_semantics (s : BotState) (d : EventData)
    (hs : s.streamingActive = true) :
    ((d.tokensPerSecondField = none ∨ d.tokensPerSecondField = some 0) →
      (handleStreamEvent s { event := "progress", data := d }).1.stats.tokensPerSecond = 0) ∧
    (d.elapsed = none →
      (handleStreamEvent s { event := "progress", data := d }).1.stats.elapsedTime = 0) ∧
    (d.count = none →
      (handleStreamEvent s { event := "progress", data := d }).1.stats.tokenCount
        = s.stats.tokenCount) := by
  refine ⟨?_, ?_, ?_⟩
  · rintro (h | h) <;> simp [handleStreamEvent, hs, h, natVal]
  · intro h; simp [handleStreamEvent, hs, h, natVal]
  · intro h; simp [handleStreamEvent, hs, h, natVal]

/-- C10 (witness): a progress event with only a `count` field resets
`tokensPerSecond` to 0. -/
theorem c10_progress_falsy_field_semantics_witness :
    streamingState.streamingActive = true ∧
    ((({ count := some 2 } : EventData).tokensPerSecondField = none ∨
        ({ count := some 2 } : EventData).tokensPerSecondField = some 0) →
      (handleStreamEvent streamingState
          { event := "progress", data := { count := some 2 } }).1.stats.tokensPerSecond
        = 0) :=
  ⟨rfl, (c10_progress_falsy_field_semantics streamingState { count := some 2 } rfl).1⟩

/-- C9 (counterexample): from a Streaming state with `tokenCount = 5`, a
`progress` event carrying `count = 3` lowers `tokenCount` to 3: the code
trusts the payload and does not enforce monotonicity, refuting the claim
that `tokenCount` never decreases across events. -/
theorem c9_progress_can_decrease_tokenCount :
    ¬ (statefulStreaming.stats.tokenCount ≤
        (handleStreamEvent statefulStreaming
          { event := "progress", data := { count := some 3 } }).1.stats.tokenCount) := by
  decide

/-- C9 (amended): over a sequence of `progress`/`metadata` events
processed during one Streaming phase, later values overwrite earlier
ones: the final `tokenCount` equals the last truthy `count` carried by a
`progress` event (or the initial value when there is none), and it is
non-decreasing provided the truthy counts themselves form a
non-decreasing chain from the initial value — the code does not enforce
this on its own, and `start` does not reset the stats. -/
theorem c9_stats_overwrite_last_wins_monotone (s : BotState)
    (evs : List DispatchedEvent) (hs : InStreaming s)
    (hev : ∀ e ∈ evs, e.event = "progress" ∨ e.event = "metadata")
    (hchain : List.Chain' (· ≤ ·) (s.stats.tokenCount :: truthyCounts evs)) :
    s.stats.tokenCount ≤ (processEvents s evs).1.stats.tokenCount ∧
    (processEvents s evs).1.stats.tokenCount
      = (truthyCounts evs).getLastD s.stats.tokenCount ∧
    InStreaming (processEvents s evs).1 := by
  induction evs generalizing s with
  | nil =>
    exact ⟨le_refl _, by simp [processEvents, truthyCounts],
      by simpa [processEvents] using hs⟩
  | cons e rest ih =>
    obtain ⟨hA, hB, hC⟩ := hs
    have he := hev e (List.mem_cons_self e rest)
    have hrest : ∀ x ∈ rest, x.event = "progress" ∨ x.event = "metadata" :=
      fun x hx => hev x (List.mem_cons_of_mem e hx)
    have hproc : (processEvents s (e :: rest)).1
        = (processEvents (handleStreamEvent s e).1 rest).1 := by
      simp [processEvents]
    rcases e with ⟨ev, d⟩
    rcases he with he | he <;> subst he
    · rcases hc : natVal d.count with _ | c
      · have ht : (handleStreamEvent s { event := "progress", data := d }).1.stats.tokenCount
            = s.stats.tokenCount := by
          simp [handleStreamEvent, hA, hc]
        have hfl : InStreaming (handleStreamEvent s { event := "progress", data := d }).1 := by
          simp [InStreaming, handleStreamEvent, hA, hB, hC]
        have hcounts : truthyCounts ({ event := "progress", data := d } :: rest)
            = truthyCounts rest := by
          simp [truthyCounts, List.filterMap_cons, hc]
        rw [hcounts] at hchain
        have := ih (handleStreamEvent s { event := "progress", data := d }).1 hfl hrest
          (by rw [ht]; exact hchain)
        refine ⟨?_, ?_, ?_⟩
        · rw [hproc]
          exact le_of_eq_of_le ht.symm this.1
        · rw [hproc, hcounts, this.2.1, ht]
        · rw [hproc]; exact this.2.2
      · have ht : (handleStreamEvent s { event := "progress", data := d }).1.stats.tokenCount
            = c := by
          simp [handleStreamEvent, hA, hc]
        have hfl : InStreaming (handleStreamEvent s { event := "progress", data := d }).1 := by
          simp [InStreaming, handleStreamEvent, hA, hB, hC]
        have hcounts : truthyCounts ({ event := "progress", data := d } :: rest)
            = c :: truthyCounts rest := by
          simp [truthyCounts, List.filterMap_cons, hc]
        rw [hcounts] at hchain
        rw [List.chain'_cons] at hchain
        have := ih (handleStreamEvent s { event := "progress", data := d }).1 hfl hrest
          (by rw [ht]; exact hchain.2)
        refine ⟨?_, ?_, ?_⟩
        · rw [hproc]
          exact le_trans hchain.1 (le_of_eq_of_le ht.symm this.1)
        · rw [hproc, hcounts, List.getLastD_cons, this.2.1, ht]
        · rw [hproc]; exact this.2.2
    · rcases hb : d.codeBlocksField with _ | bs <;>
      · have ht : (handleStreamEvent s { event := "metadata", data := d }).1.stats.tokenCount
            = s.stats.tokenCount := by
          simp [handleStreamEvent, hA, hb]
        have hfl : InStreaming (handleStreamEvent s { event := "metadata", data := d }).1 := by
          simp [InStreaming, handleStreamEvent, hA, hB, hC, hb]
        have hcounts : truthyCounts ({ event := "metadata", data := d } :: rest)
            = truthyCounts rest := by
          simp [truthyCounts, List.filterMap_cons]
        rw [hcounts] at hchain
        have := ih (handleStreamEvent s { event := "metadata", data := d }).1 hfl hrest
          (by rw [ht]; exact hchain)
        refine ⟨?_, ?_, ?_⟩
        · rw [hproc]
          exact le_of_eq_of_le ht.symm this.1
        · rw [hproc, hcounts, this.2.1, ht]
        · rw [hproc]; exact this.2.2

/-- C9 (witness): counts 7 then 9 from `progress` events, with a
`metadata` event in between, never decrease `tokenCount` from 5. -/
theorem c9_stats_overwrite_last_wins_monotone_witness :
    InStreaming statefulStreaming ∧
    (∀ e ∈ ([{ event := "progress", data := { count := some 7 } },
        { event := "metadata" },
        { event := "progress", data := { count := some 9 } }] : List DispatchedEvent),
      e.event = "progress" ∨ e.event = "metadata") ∧
    List.Chain' (· ≤ ·) (statefulStreaming.stats.tokenCount
      :: truthyCounts [{ event := "progress", data := { count := some 7 } },
        { event := "metadata" },
        { event := "progress", data := { count := some 9 } }]) ∧
    statefulStreaming.stats.tokenCount ≤
      (processEvents statefulStreaming
        [{ event := "progress", data := { count := some 7 } },
          { event := "metadata" },
          { event := "progress", data := { count := some 9 } }]).1.stats.tokenCount := by
  have hch : List.Chain' (· ≤ ·) (statefulStreaming.stats.tokenCount
      :: truthyCounts [{ event := "progress", data := { count := some 7 } },
        { event := "metadata" },
        { event := "progress", data := { count := some 9 } }]) := by
    have ht : truthyCounts [{ event := "progress", data := { count := some 7 } },
        { event := "metadata" },
        { event := "progress", data := { count := some 9 } }] = [7, 9] := by decide
    rw [ht]
    show List.Chain' (· ≤ ·) [5, 7, 9]
    simp [List.chain'_cons]
  exact ⟨by decide, by decide, hch,
    (c9_stats_overwrite_last_wins_monotone statefulStreaming _
      (by decide) (by decide) hch).1⟩

/-- C7 (counterexample): an `error` event whose payload carries the
present-but-empty error string invokes the error callback with the
default message, not with the payload's error field value. -/
theorem c7_empty_error_string_defaults :
    (handleStreamEvent streamingState
        { event := "error", data := { error := some "" } }).2
      = [SessionAction.onErrorCb "Unknown streaming error"] ∧
    ¬ ((handleStreamEvent streamingState
        { event := "error", data := { error := some "" } }).2
      = [SessionAction.onErrorCb ""]) := by decide

/-- C7 (amended): in the Streaming phase a single `error` event invokes
the error callback exactly once, with the payload's error message when
it is present and non-empty and with "Unknown streaming error" when it
is absent (or empty); the accumulator moves to the Errored phase, the
session deactivates so every subsequent event is ignored, and a session
whose HTTP exchange succeeds makes exactly one network call however many
retries remain. -/
theorem c7_error_event_terminal (s : BotState) (d : EventData)
    (hs : InStreaming s) :
    (handleStreamEvent s { event := "error", data := d }).2
      = [SessionAction.onErrorCb (errorMessageOf d.error)] ∧
    (d.error = none → errorMessageOf d.error = "Unknown streaming error") ∧
    (∀ m, d.error = some m → m ≠ "" → errorMessageOf d.error = m) ∧
    phase (handleStreamEvent s { event := "error", data := d }).1 = Phase.Errored ∧
    (handleStreamEvent s { event := "error", data := d }).1.streamingActive = false ∧
    (∀ e2, handleStreamEvent (handleStreamEvent s { event := "error", data := d }).1 e2
        = ((handleStreamEvent s { event := "error", data := d }).1, [])) ∧
    (∀ (s0 : BotState) (evs : List DispatchedEvent), s0.retryCount < maxRetries →
      ((startStreaming [AttemptOutcome.success evs] s0).2.filter isNetworkCall)
        = [SessionAction.networkCall]) := by
  obtain ⟨h1, h2, h3⟩ := hs
  refine ⟨?_, ?_, ?_, ?_, ?_, ?_, ?_⟩
  · simp [handleStreamEvent, h1]
  · intro h; simp [errorMessageOf, strVal, h]
  · intro m hm hne; simp [errorMessageOf, strVal, hm, hne]
  · simp [handleStreamEvent, h1, h3, phase]
  · simp [handleStreamEvent, h1]
  · intro e2; simp [handleStreamEvent, h1]
  · intro s0 evs hr
    have hp := processEvents_no_network
      { s0 with
        isStreaming := true
        error := none
        isComplete := false
        streamingActive := true
        abortController := some false } evs
    have hnr : ¬ (maxRetries ≤ s0.retryCount) := Nat.not_le.mpr hr
    cases hab : s0.abortController <;>
      simp [startStreaming, hnr, hab, List.filter_append, hp.1, isNetworkCall]

/-- C7 (witness): an error event with message "boom" fires the callback
once with "boom". -/
theorem c7_error_event_terminal_witness :
    InStreaming streamingState ∧
    (handleStreamEvent streamingState
        { event := "error", data := { error := some "boom" } }).2
      = [SessionAction.onErrorCb (errorMessageOf (some "boom"))] :=
  ⟨by decide,
    (c7_error_event_terminal streamingState { error := some "boom" } (by decide)).1⟩

set_option maxHeartbeats 1000000 in
/-- C2: starting from the fresh component state, three consecutive
non-abort transport failures with `maxRetries = 3` produce exactly three
network calls, exactly two scheduled retries (none after the third
failure), and surface the third failure's message through the error
callback exactly once; the terminal state has the retry counter at the
bound and is inactive, and no later invocation of the start routine can
issue any further action. -/
theorem c2_retry_bound_three_attempts (m1 m2 m3 : String) :
    ((startStreaming [AttemptOutcome.failure false m1, AttemptOutcome.failure false m2,
        AttemptOutcome.failure false m3] initialState).2.filter isNetworkCall).length = 3 ∧
    (startStreaming [AttemptOutcome.failure false m1, AttemptOutcome.failure false m2,
        AttemptOutcome.failure false m3] initialState).2.filter isErrorCb
      = [SessionAction.onErrorCb (errorMessageOf (some m3))] ∧
    ((startStreaming [AttemptOutcome.failure false m1, AttemptOutcome.failure false m2,
        AttemptOutcome.failure false m3] initialState).2.filter isRetrySched).length = 2 ∧
    (startStreaming [AttemptOutcome.failure false m1, AttemptOutcome.failure false m2,
        AttemptOutcome.failure false m3] initialState).1.retryCount = 3 ∧
    (startStreaming [AttemptOutcome.failure false m1, AttemptOutcome.failure false m2,
        AttemptOutcome.failure false m3] initialState).1.streamingActive = false ∧
    (∀ outcomes, (startStreaming outcomes
        (startStreaming [AttemptOutcome.failure false m1, AttemptOutcome.failure false m2,
          AttemptOutcome.failure false m3] initialState).1).2 = []) := by
  have hrun : startStreaming [AttemptOutcome.failure false m1, AttemptOutcome.failure false m2,
      AttemptOutcome.failure false m3] initialState
      = ({ response := ""
           isStreaming := false
           error := some (errorMessageOf (some m3))
           isComplete := false
           stats := {}
           codeBlocks := []
           activeCodeBlock := none
           currentCodeContent := ""
           retryCount := 3
           streamingActive := false
           abortController := some false },
         [SessionAction.networkCall, SessionAction.retryScheduled 1000,
          SessionAction.abortRequest, SessionAction.networkCall,
          SessionAction.retryScheduled 2000, SessionAction.abortRequest,
          SessionAction.networkCall,
          SessionAction.onErrorCb (errorMessageOf (some m3))]) := rfl
  rw [hrun]
  refine ⟨rfl, rfl, rfl, rfl, rfl, ?_⟩
  intro outcomes
  cases outcomes with
  | nil => rfl
  | cons o rest => rfl

/-- C6: once `stopStreaming` runs on a session with a live, not yet
aborted controller, the underlying request is aborted, the session
deactivates, every subsequently dispatched event leaves the state
unchanged and fires no callback, the scheduled-retry timer body refuses
to restart, the accumulator reads as Complete even though no completion
callback was invoked (the stop emits only the abort), and a request that
fails because of the abort itself (`AbortError`) produces no error
callback. -/
theorem c6_cancellation_suppresses_callbacks (s : BotState)
    (h : s.abortController = some false) :
    (stopStreaming s).2 = [SessionAction.abortRequest] ∧
    (stopStreaming s).1.streamingActive = false ∧
    (∀ e, handleStreamEvent (stopStreaming s).1 e = ((stopStreaming s).1, [])) ∧
    (∀ outcomes, retryTimerFire outcomes (stopStreaming s).1 = ((stopStreaming s).1, [])) ∧
    phase (stopStreaming s).1 = Phase.Complete ∧
    (∀ a ∈ (stopStreaming s).2, a = SessionAction.abortRequest) ∧
    (∀ (s0 : BotState) (msg : String), s0.retryCount < maxRetries →
      s0.abortController = none →
      (startStreaming [AttemptOutcome.failure true msg] s0).2
        = [SessionAction.networkCall]) := by
  refine ⟨?_, ?_, ?_, ?_, ?_, ?_, ?_⟩
  · simp [stopStreaming, cleanup, h]
  · simp [stopStreaming, cleanup]
  · intro e; simp [stopStreaming, cleanup, handleStreamEvent]
  · intro outcomes; simp [stopStreaming, cleanup, retryTimerFire]
  · simp [stopStreaming, cleanup, phase]
  · simp [stopStreaming, cleanup, h]
  · intro s0 msg hr hab
    have hnr : ¬ (maxRetries ≤ s0.retryCount) := Nat.not_le.mpr hr
    simp [startStreaming, hnr, hab]

/-- C6 (witness): stopping the in-flight Streaming sample aborts the
request. -/
theorem c6_cancellation_suppresses_callbacks_witness :
    streamingState.abortController = some false ∧
    (stopStreaming streamingState).2 = [SessionAction.abortRequest] :=
  ⟨rfl, (c6_cancellation_suppresses_callbacks streamingState rfl).1⟩

end BotResponse
